import Mathlib

/-
Verification development for the WholesaleTrade-TimeSeries-Analysis script
(src/analysis_script.py).  The pipeline is embedded shallowly:

  * month-label cleaning   = the three chained str.replace / strip steps
    (lines 48-54 of the script);
  * year cleaning          = the trailing ".0" removal plus strip (line 57);
  * date parsing           = pandas to_datetime with the full-month-name
    format (percent-B, one run of whitespace, percent-Y = exactly four
    digits, whole string consumed, case-insensitive), errors coerced to
    dropped rows (lines 60-62);
  * value parsing          = comma removal plus numeric coercion
    (lines 65-68), with numbers modelled as rationals;
  * load_and_clean_data    = file handling, column rename/selection and the
    row pipeline, returning an empty series on missing/empty files and
    raising on missing columns (lines 28-74);
  * build_merged_table     = the merge / metric part of run_data_processing
    (lines 94-116): empty-input abort, inner join on Date, ratio column,
    pct_change(12) * 100, CSV write event;
  * main_model             = the entry point (lines 174-179), which renders
    the four charts only when a non-empty table was produced.

Dates are encoded as year * 12 + (monthIndex - 1); side effects (warnings,
the CSV write, the chart writes, the abort) are recorded as an event list.
Character classes follow the Python regexes restricted to ASCII, which
covers all data the script consumes.
-/

namespace WTS

/-- Python regex word character (backslash-w), ASCII fragment: letters,
digits and underscore. -/
def isWordChar (c : Char) : Bool := c.isAlphanum || c = '_'

/-- Python regex whitespace character (backslash-s), ASCII fragment. -/
def isSpaceChar (c : Char) : Bool :=
  c = ' ' || c = '\t' || c = '\n' || c = '\r' || c = '\x0b' || c = '\x0c'

/-- Characters kept by the first month-cleaning substitution: word
characters and whitespace. -/
def keepChar (c : Char) : Bool := isWordChar c || isSpaceChar c

/-- Step 1 of month cleaning: drop every character that is neither a word
character nor whitespace (the footnote markers like "*" or ","). -/
def removeNonWordSpace (l : List Char) : List Char :=
  l.filter keepChar

/-- Step 2 of month cleaning: replace every maximal run of whitespace by a
single space character. -/
def collapseSpaces : List Char → List Char
  | [] => []
  | [c] => if isSpaceChar c then [' '] else [c]
  | c :: d :: rest =>
    if isSpaceChar c && isSpaceChar d then collapseSpaces (d :: rest)
    else (if isSpaceChar c then ' ' else c) :: collapseSpaces (d :: rest)

/-- Step 3 of month cleaning (and Python str.strip): drop leading and
trailing whitespace. -/
def stripChars (l : List Char) : List Char :=
  ((l.dropWhile isSpaceChar).reverse.dropWhile isSpaceChar).reverse

/-- The month-label cleaning chain of lines 48-54 of the script. -/
def cleanMonth (s : String) : String :=
  String.mk (stripChars (collapseSpaces (removeNonWordSpace s.toList)))

/-- Whether a character list ends in the two characters ".0". -/
def endsWithDotZero (l : List Char) : Bool :=
  match l.reverse with
  | '0' :: '.' :: _ => true
  | _ => false

/-- Year cleaning (line 57): drop a trailing ".0", then strip whitespace. -/
def cleanYear (s : String) : String :=
  let l := s.toList
  let t := if endsWithDotZero l then l.take (l.length - 2) else l
  String.mk (stripChars t)

/-- Numeric value of a list of decimal digit characters. -/
def digitsVal (cs : List Char) : Nat :=
  cs.foldl (fun a c => a * 10 + (c.toNat - 48)) 0

/-- The twelve full month names with their month numbers, as in the
strptime tables backing pandas to_datetime. -/
def monthNames : List (String × Nat) :=
  [("january", 1), ("february", 2), ("march", 3), ("april", 4),
   ("may", 5), ("june", 6), ("july", 7), ("august", 8),
   ("september", 9), ("october", 10), ("november", 11), ("december", 12)]

/-- ASCII lowercasing of one character, as the case-insensitive match of
the date format performs. -/
def lowerChar (c : Char) : Char :=
  if 'A' ≤ c ∧ c ≤ 'Z' then Char.ofNat (c.toNat + 32) else c

/-- Pandas to_datetime with format percent-B space percent-Y and coerced
errors, on a single string: a full month name (case-insensitive), at least
one whitespace character, then exactly four digits, consuming the whole
string.  Returns the date key year * 12 + (month - 1), or none. -/
def parseMonthYear (s : String) : Option Nat :=
  let low := s.toList.map lowerChar
  monthNames.findSome? (fun nm =>
    if low.take nm.1.length = nm.1.toList then
      let rest := low.drop nm.1.length
      let rest2 := rest.dropWhile isSpaceChar
      if rest2.length < rest.length ∧ rest2.length = 4 ∧ rest2.all Char.isDigit then
        some (digitsVal rest2 * 12 + (nm.2 - 1))
      else none
    else none)

/-- Comma removal of line 66 (str.replace of "," by the empty string). -/
def stripCommas (s : String) : String :=
  String.mk (s.toList.filter (fun c => c ≠ ','))

/-- Pandas to_numeric with coerced errors on one string, modelled on plain
decimal literals: optional surrounding whitespace, optional sign, digits
with an optional fractional part and an optional exponent; anything else
is none (dropped by the later dropna). -/
def parseNumeric (s : String) : Option ℚ :=
  let cs := (((s.toList.dropWhile isSpaceChar).reverse.dropWhile
      isSpaceChar).reverse)
  let signAndRest : Bool × List Char :=
    match cs with
    | '-' :: t => (true, t)
    | '+' :: t => (false, t)
    | _ => (false, cs)
  let ip := signAndRest.2.takeWhile Char.isDigit
  let afterInt := signAndRest.2.dropWhile Char.isDigit
  let fracAndRest : List Char × List Char :=
    match afterInt with
    | '.' :: t => (t.takeWhile Char.isDigit, t.dropWhile Char.isDigit)
    | _ => ([], afterInt)
  if ip.isEmpty ∧ fracAndRest.1.isEmpty then none
  else
    let mant : ℚ :=
      (digitsVal ip : ℚ) + (digitsVal fracAndRest.1 : ℚ) / 10 ^ fracAndRest.1.length
    let signedMant : ℚ := if signAndRest.1 then -mant else mant
    match fracAndRest.2 with
    | [] => some signedMant
    | 'e' :: t =>
      match t with
      | '-' :: u =>
        if u.isEmpty ∨ ¬ u.all Char.isDigit then none
        else some (signedMant / 10 ^ digitsVal u)
      | '+' :: u =>
        if u.isEmpty ∨ ¬ u.all Char.isDigit then none
        else some (signedMant * 10 ^ digitsVal u)
      | u =>
        if u.isEmpty ∨ ¬ u.all Char.isDigit then none
        else some (signedMant * 10 ^ digitsVal u)
    | 'E' :: t =>
      match t with
      | '-' :: u =>
        if u.isEmpty ∨ ¬ u.all Char.isDigit then none
        else some (signedMant / 10 ^ digitsVal u)
      | '+' :: u =>
        if u.isEmpty ∨ ¬ u.all Char.isDigit then none
        else some (signedMant * 10 ^ digitsVal u)
      | u =>
        if u.isEmpty ∨ ¬ u.all Char.isDigit then none
        else some (signedMant * 10 ^ digitsVal u)
    | _ => none

/-- Encoding of a calendar month as produced by parseMonthYear. -/
def dateKey (year month : Nat) : Nat := year * 12 + (month - 1)

/-- One raw data row: the Month, Year and value (code 42) cells, as read
from the CSV. -/
structure RawRow where
  month : String
  year : String
  value : String

/-- The per-row pipeline of lines 48-68: clean month and year, build the
date string, parse the date and the comma-stripped value; the row survives
only if both parses succeed. -/
def cleanRow (r : RawRow) : Option (Nat × ℚ) :=
  match parseMonthYear (cleanMonth r.month ++ " " ++ cleanYear r.year),
        parseNumeric (stripCommas r.value) with
  | some d, some v => some (d, v)
  | _, _ => none

/-- Insertion into a date-sorted series. -/
def insertByKey (p : Nat × ℚ) : List (Nat × ℚ) → List (Nat × ℚ)
  | [] => [p]
  | q :: t => if p.1 ≤ q.1 then p :: q :: t else q :: insertByKey p t

/-- Sorting a series ascending by date key (the script's sort_values). -/
def sortByKey : List (Nat × ℚ) → List (Nat × ℚ)
  | [] => []
  | p :: t => insertByKey p (sortByKey t)

/-- Lines 62-71: drop rows with unparseable date or value, then sort the
survivors ascending by Date. -/
def cleanRows (rows : List RawRow) : List (Nat × ℚ) :=
  sortByKey (rows.filterMap cleanRow)

/-- State of an input file as seen by pandas read_csv: absent, present but
with no parseable tabular data, or a parsed table (header row after the
16-line preamble, then data rows). -/
inductive FileState where
  | notFound
  | emptyData
  | table (header : List String) (rows : List (List String))

/-- Result of load_and_clean_data: either an uncaught exception, or a
series together with the printed diagnostics. -/
inductive LoadResult where
  | raised (msg : String)
  | ok (diags : List String) (series : List (Nat × ℚ))

/-- The rename of line 38: the column literally named "42" becomes the
requested value column name. -/
def renameHeader (header : List String) (colName : String) : List String :=
  header.map (fun h => if h = "42" then colName else h)

/-- Cell of a row at a column position (missing cells read as empty). -/
def cell (row : List String) (i : Nat) : String := row.getD i ""

/-- Column extraction of line 45: locate Month, Year and the value column
in the renamed header and project each row onto those three cells. -/
def extractRawRows (header : List String) (rows : List (List String))
    (colName : String) : List RawRow :=
  let hdr := renameHeader header colName
  let mi := hdr.indexOf "Month"
  let yi := hdr.indexOf "Year"
  let vi := hdr.indexOf colName
  rows.map (fun r => ⟨cell r mi, cell r yi, cell r vi⟩)

/-- load_and_clean_data (lines 23-74): a missing or empty file yields an
empty series with a diagnostic; a table lacking one of the three required
columns raises an uncaught KeyError at the column selection; otherwise the
row pipeline runs. -/
def load_and_clean_data (f : FileState) (colName : String) : LoadResult :=
  match f with
  | .notFound => .ok ["Error: File not found"] []
  | .emptyData => .ok ["Error: File is empty or invalid"] []
  | .table header rows =>
    if "Month" ∈ renameHeader header colName ∧
        "Year" ∈ renameHeader header colName ∧
        colName ∈ renameHeader header colName then
      .ok ["Loaded rows"] (cleanRows (extractRawRows header rows colName))
    else
      .raised "KeyError: columns not in index"

/-- Observable side effects of the processing and charting steps. -/
inductive Event where
  | warnSalesEmpty
  | warnInventoriesEmpty
  | abortRun
  | writeCsv
  | writeChart (idx : Nat)
deriving DecidableEq

/-- One row of the merged table, with the column names of the script. -/
structure MergedRow where
  Date : Nat
  Sales_Total_Nominal : ℚ
  Inventories_Total_Nominal : ℚ
  Inventories_to_Sales_Ratio_Nominal : ℚ
  Sales_YoY_Growth : Option ℚ
deriving DecidableEq

/-- pd.merge on Date with how = inner (line 104): left row order is kept,
and every left row is paired with every matching right row. -/
def innerJoin (left right : List (Nat × ℚ)) : List (Nat × ℚ × ℚ) :=
  left.flatMap (fun a =>
    (right.filter (fun b => b.1 == a.1)).map (fun b => (a.1, a.2, b.2)))

/-- Series.shift: n leading missing values, the column pushed down,
truncated to the original length. -/
def shiftCol (n : Nat) (l : List ℚ) : List (Option ℚ) :=
  (List.replicate n none ++ l.map some).take l.length

/-- Series.pct_change(periods = n) on a column without missing values:
elementwise current / shifted - 1. -/
def pctChange (n : Nat) (l : List ℚ) : List (Option ℚ) :=
  l.zipWith (fun x s => s.map (fun y => x / y - 1)) (shiftCol n l)

/-- Lines 94-116 of run_data_processing, after the two loads: abort with
warnings when either series is empty, otherwise inner-join on Date, add
the ratio and year-over-year growth columns, and write the CSV. -/
def build_merged_table (sales inventories : List (Nat × ℚ)) :
    Option (List MergedRow) × List Event :=
  let warns :=
    (if sales.isEmpty then [Event.warnSalesEmpty] else []) ++
    (if inventories.isEmpty then [Event.warnInventoriesEmpty] else [])
  if sales.isEmpty || inventories.isEmpty then
    (none, warns ++ [Event.abortRun])
  else
    let joined := innerJoin sales inventories
    let growth :=
      (pctChange 12 (joined.map (fun r => r.2.1))).map
        (Option.map (fun g => g * 100))
    let tbl := joined.zipWith
      (fun r g => MergedRow.mk r.1 r.2.1 r.2.2 (r.2.2 / r.2.1) g) growth
    (some tbl, warns ++ [Event.writeCsv])

/-- run_data_processing (lines 80-116): load both files, then merge; an
uncaught exception in a load propagates. -/
def run_data_processing (salesFile invFile : FileState) :
    Except String (Option (List MergedRow) × List Event) :=
  match load_and_clean_data salesFile "Sales_Total_Nominal" with
  | .raised m => .error m
  | .ok _ s =>
    match load_and_clean_data invFile "Inventories_Total_Nominal" with
    | .raised m => .error m
    | .ok _ i => .ok (build_merged_table s i)

/-- generate_charts (lines 120-170): the four chart files it writes. -/
def generate_charts : List Event :=
  [.writeChart 1, .writeChart 2, .writeChart 3, .writeChart 4]

/-- The script entry point (lines 174-179): run the processing, and render
charts only when a table was produced and is non-empty. -/
def main_model (salesFile invFile : FileState) :
    Except String (Option (List MergedRow) × List Event) :=
  match run_data_processing salesFile invFile with
  | .error m => .error m
  | .ok (some tbl, evs) =>
    if tbl.isEmpty then .ok (some tbl, evs)
    else .ok (some tbl, evs ++ generate_charts)
  | .ok (none, evs) => .ok (none, evs)

/-- The raw rows a load call feeds into the row pipeline. -/
def sourceRows (f : FileState) (colName : String) : List RawRow :=
  match f with
  | .notFound => []
  | .emptyData => []
  | .table header rows => extractRawRows header rows colName

/-- Invariant of collapsed character lists: every whitespace character is a
plain space and no two adjacent characters are both whitespace. -/
def Collapsed (l : List Char) : Prop :=
  (∀ c ∈ l, isSpaceChar c = true → c = ' ') ∧
    l.Chain' (fun a b => ¬(isSpaceChar a = true ∧ isSpaceChar b = true))

/-- Example cleaned sales series: January to March 2020. -/
def exSales : List (Nat × ℚ) :=
  [(dateKey 2020 1, 100), (dateKey 2020 2, 110), (dateKey 2020 3, 120)]

/-- Example cleaned inventories series: December 2019 to February 2020,
sharing exactly January and February 2020 with the sales example. -/
def exInventories : List (Nat × ℚ) :=
  [(dateKey 2019 12, 50), (dateKey 2020 1, 55), (dateKey 2020 2, 60)]

/-- Thirteen months of constant sales 100 on consecutive date keys. -/
def exSales13 : List (Nat × ℚ) := (List.range 13).map (fun k => (k, 100))

/-- Thirteen months of constant inventories 50 on the same date keys. -/
def exInv13 : List (Nat × ℚ) := (List.range 13).map (fun k => (k, 50))

/-- The merged table of the two constant 13-month example series. -/
def exTable13 : List MergedRow :=
  ((build_merged_table exSales13 exInv13).1).getD []

/-! Helper lemmas about the cleaned series, the loader and the merge. -/

/-- Membership after insertion. -/
theorem mem_insertByKey {p r : Nat × ℚ} :
    ∀ {l : List (Nat × ℚ)}, r ∈ insertByKey p l ↔ r = p ∨ r ∈ l := by
  intro l
  induction l with
  | nil => simp [insertByKey]
  | cons q t ih =>
    by_cases h : p.1 ≤ q.1
    · simp [insertByKey, h]
    · simp only [insertByKey, h, if_false, List.mem_cons, ih]
      tauto

/-- Sorting preserves membership. -/
theorem mem_sortByKey {r : Nat × ℚ} :
    ∀ {l : List (Nat × ℚ)}, r ∈ sortByKey l ↔ r ∈ l := by
  intro l
  induction l with
  | nil => simp [sortByKey]
  | cons q t ih =>
    simp only [sortByKey, mem_insertByKey, List.mem_cons, ih]

/-- Insertion preserves sortedness by date key. -/
theorem pairwise_insertByKey (p : Nat × ℚ) :
    ∀ l : List (Nat × ℚ), l.Pairwise (fun a b => a.1 ≤ b.1) →
      (insertByKey p l).Pairwise (fun a b => a.1 ≤ b.1)
  | [], _ => by simp [insertByKey]
  | q :: t, h => by
    rw [List.pairwise_cons] at h
    by_cases hpq : p.1 ≤ q.1
    · rw [insertByKey, if_pos hpq, List.pairwise_cons]
      refine ⟨?_, List.Pairwise.cons h.1 h.2⟩
      intro b hb
      rcases List.mem_cons.mp hb with rfl | hb2
      · exact hpq
      · exact le_trans hpq (h.1 b hb2)
    · rw [insertByKey, if_neg hpq, List.pairwise_cons]
      have hqp : q.1 ≤ p.1 := le_of_not_le hpq
      refine ⟨?_, pairwise_insertByKey p t h.2⟩
      intro b hb
      rcases mem_insertByKey.mp hb with rfl | hb2
      · exact hqp
      · exact h.1 b hb2

/-- The sorted series is pairwise sorted ascending by date key. -/
theorem pairwise_sortByKey :
    ∀ l : List (Nat × ℚ), (sortByKey l).Pairwise (fun a b => a.1 ≤ b.1)
  | [] => List.Pairwise.nil
  | p :: t => pairwise_insertByKey p (sortByKey t) (pairwise_sortByKey t)

/-- The cleaned series is pairwise sorted ascending by date key. -/
theorem cleanRows_pairwise (rows : List RawRow) :
    (cleanRows rows).Pairwise (fun a b => a.1 ≤ b.1) :=
  pairwise_sortByKey (rows.filterMap cleanRow)

/-- Membership in the cleaned series is membership in the filtered rows. -/
theorem mem_cleanRows {rows : List RawRow} {r : Nat × ℚ} :
    r ∈ cleanRows rows ↔ r ∈ rows.filterMap cleanRow :=
  mem_sortByKey

/-- cleanRow succeeds exactly when both the date and the value parse. -/
theorem cleanRow_eq_some {raw : RawRow} {p : Nat × ℚ} :
    cleanRow raw = some p ↔
      parseMonthYear (cleanMonth raw.month ++ " " ++ cleanYear raw.year) =
        some p.1 ∧
      parseNumeric (stripCommas raw.value) = some p.2 := by
  unfold cleanRow
  cases hd : parseMonthYear (cleanMonth raw.month ++ " " ++ cleanYear raw.year) with
  | none => cases hv : parseNumeric (stripCommas raw.value) <;> simp
  | some d =>
    cases hv : parseNumeric (stripCommas raw.value) with
    | none => simp
    | some v =>
      simp only [Option.some_inj]
      constructor
      · intro h
        rw [← h]
        exact ⟨rfl, rfl⟩
      · intro h
        obtain ⟨h1, h2⟩ := h
        cases p
        simp only [Prod.mk.injEq]
        exact ⟨h1, h2⟩

/-- A successful load always returns the cleaned series of its source
rows (in particular the empty series for missing or empty files). -/
theorem load_ok_series {f : FileState} {colName : String} {d : List String}
    {s : List (Nat × ℚ)} (h : load_and_clean_data f colName = .ok d s) :
    s = cleanRows (sourceRows f colName) := by
  cases f with
  | notFound =>
    simp only [load_and_clean_data] at h
    cases h
    simp [cleanRows, sourceRows, sortByKey]
  | emptyData =>
    simp only [load_and_clean_data] at h
    cases h
    simp [cleanRows, sourceRows, sortByKey]
  | table header rows =>
    simp only [load_and_clean_data] at h
    by_cases hc : "Month" ∈ renameHeader header colName ∧
        "Year" ∈ renameHeader header colName ∧
        colName ∈ renameHeader header colName
    · rw [if_pos hc] at h
      cases h
      rfl
    · rw [if_neg hc] at h
      exact absurd h (by simp)

/-- The merge of non-empty inputs produces the joined table with its two
derived columns and the CSV write event. -/
theorem build_merged_table_some (sales inventories : List (Nat × ℚ))
    (hs : sales ≠ []) (hi : inventories ≠ []) :
    build_merged_table sales inventories =
      (some ((innerJoin sales inventories).zipWith
          (fun r g => MergedRow.mk r.1 r.2.1 r.2.2 (r.2.2 / r.2.1) g)
          ((pctChange 12 ((innerJoin sales inventories).map (fun r => r.2.1))).map
            (Option.map (fun g => g * 100)))),
        [Event.writeCsv]) := by
  have h1 : sales.isEmpty = false := by
    cases sales with
    | nil => exact absurd rfl hs
    | cons a t => rfl
  have h2 : inventories.isEmpty = false := by
    cases inventories with
    | nil => exact absurd rfl hi
    | cons a t => rfl
  simp [build_merged_table, h1, h2]

/-- A produced table forces both inputs to be non-empty. -/
theorem build_table_ne {sales inventories : List (Nat × ℚ)}
    {t : List MergedRow}
    (ht : (build_merged_table sales inventories).1 = some t) :
    sales ≠ [] ∧ inventories ≠ [] := by
  constructor <;> rintro rfl <;> simp [build_merged_table] at ht

/-- The merge of inputs with an empty side warns accordingly and aborts. -/
theorem build_merged_table_abort (s i : List (Nat × ℚ))
    (he : s = [] ∨ i = []) :
    build_merged_table s i =
      (none, ((if s.isEmpty then [Event.warnSalesEmpty] else []) ++
        (if i.isEmpty then [Event.warnInventoriesEmpty] else [])) ++
        [Event.abortRun]) := by
  have hempty : (s.isEmpty || i.isEmpty) = true := by
    rcases he with rfl | rfl <;> simp
  simp [build_merged_table, hempty]

/-- zipWith against an equally long list keeps the length. -/
theorem zipWith_length_eq {α β γ : Type} (f : α → β → γ) (l : List α)
    (m : List β) (h : m.length = l.length) :
    (List.zipWith f l m).length = l.length := by
  rw [List.length_zipWith, h, Nat.min_self]

/-- zipWith with a function ignoring its second argument is a map. -/
theorem zipWith_fst {α β γ : Type} (f : α → γ) :
    ∀ (l : List α) (m : List β), m.length = l.length →
      List.zipWith (fun a _ => f a) l m = l.map f
  | [], _, _ => by simp
  | a :: t, [], h => by simp at h
  | a :: t, b :: u, h => by
    simp only [List.zipWith_cons_cons, List.map_cons]
    rw [zipWith_fst f t u (by simpa using h)]

/-! Helper lemmas about the shifted column and pct_change. -/

/-- shiftCol preserves the column length. -/
theorem shiftCol_length (n : Nat) (l : List ℚ) :
    (shiftCol n l).length = l.length := by
  simp only [shiftCol, List.length_take, List.length_append,
    List.length_replicate, List.length_map]
  omega

/-- pctChange preserves the column length. -/
theorem pctChange_length (n : Nat) (l : List ℚ) :
    (pctChange n l).length = l.length := by
  simp only [pctChange, List.length_zipWith, shiftCol_length]
  omega

/-- Below the period, a shifted column holds the missing value. -/
theorem shiftCol_get_lt (n : Nat) (l : List ℚ) (i : Nat)
    (h : i < (shiftCol n l).length) (hn : i < n) :
    (shiftCol n l).get ⟨i, h⟩ = none := by
  have hl : i < l.length := by rw [shiftCol_length] at h; exact h
  simp only [shiftCol, List.get_eq_getElem]
  rw [List.getElem_take, List.getElem_append]
  rw [dif_pos (by simpa using hn)]
  exact List.getElem_replicate _ _

/-- From the period on, a shifted column holds the value n rows up. -/
theorem shiftCol_get_ge (n : Nat) (l : List ℚ) (i : Nat)
    (h : i < (shiftCol n l).length) (hn : n ≤ i) (hin : i - n < l.length) :
    (shiftCol n l).get ⟨i, h⟩ = some (l.get ⟨i - n, hin⟩) := by
  simp only [shiftCol, List.get_eq_getElem]
  rw [List.getElem_take, List.getElem_append]
  rw [dif_neg (by simp; omega)]
  simp only [List.length_replicate]
  rw [List.getElem_map]

/-- pct_change is missing below the period. -/
theorem pctChange_get_lt (n : Nat) (l : List ℚ) (i : Nat)
    (h : i < (pctChange n l).length) (hn : i < n) :
    (pctChange n l).get ⟨i, h⟩ = none := by
  have hl : i < l.length := by rw [pctChange_length] at h; exact h
  have hs : i < (shiftCol n l).length := by rw [shiftCol_length]; exact hl
  simp only [pctChange, List.get_eq_getElem, List.getElem_zipWith]
  have := shiftCol_get_lt n l i hs hn
  simp only [List.get_eq_getElem] at this
  rw [this]
  rfl

/-- From the period on, pct_change is current over lagged minus one. -/
theorem pctChange_get_ge (n : Nat) (l : List ℚ) (i : Nat)
    (h : i < (pctChange n l).length) (hn : n ≤ i) (hl : i < l.length)
    (hin : i - n < l.length) :
    (pctChange n l).get ⟨i, h⟩ =
      some (l.get ⟨i, hl⟩ / l.get ⟨i - n, hin⟩ - 1) := by
  have hs : i < (shiftCol n l).length := by rw [shiftCol_length]; exact hl
  simp only [pctChange, List.get_eq_getElem, List.getElem_zipWith]
  have := shiftCol_get_ge n l i hs hn hin
  simp only [List.get_eq_getElem] at this
  rw [this]
  rfl

/-! Helper lemmas about the inner join. -/

/-- Every joined row carries a Date present in both inputs, with the left
row's value as first payload and the right row's value as second. -/
theorem innerJoin_mem {left right : List (Nat × ℚ)} {r : Nat × ℚ × ℚ}
    (h : r ∈ innerJoin left right) :
    (r.1, r.2.1) ∈ left ∧ (r.1, r.2.2) ∈ right := by
  rw [innerJoin, List.mem_flatMap] at h
  obtain ⟨a, ha, hr⟩ := h
  rw [List.mem_map] at hr
  obtain ⟨b, hb, hab⟩ := hr
  have hbr := List.mem_filter.mp hb
  have hkey : b.1 = a.1 := by
    have := hbr.2
    rwa [beq_iff_eq] at this
  subst hab
  constructor
  · exact ha
  · show (a.1, b.2) ∈ right
    rw [← hkey, Prod.mk.eta]
    exact hbr.1

/-- Any list is pairwise under a relation holding of all pairs. -/
theorem pairwise_trivial {α : Type} {R : α → α → Prop} (h : ∀ x y, R x y) :
    ∀ l : List α, l.Pairwise R
  | [] => List.Pairwise.nil
  | a :: t => List.Pairwise.cons (fun y _ => h a y) (pairwise_trivial h t)

/-- The inner join of a sorted-by-key left input is sorted by key. -/
theorem innerJoin_pairwise {left : List (Nat × ℚ)} (right : List (Nat × ℚ))
    (h : left.Pairwise (fun a b => a.1 ≤ b.1)) :
    (innerJoin left right).Pairwise (fun a b => a.1 ≤ b.1) := by
  induction left with
  | nil => simp [innerJoin]
  | cons a rest ih =>
    rw [List.pairwise_cons] at h
    have step : innerJoin (a :: rest) right =
        ((right.filter (fun b => b.1 == a.1)).map (fun b => (a.1, a.2, b.2))) ++
          innerJoin rest right := by
      rw [innerJoin, List.flatMap_cons]
      rfl
    rw [step, List.pairwise_append]
    refine ⟨?_, ih h.2, ?_⟩
    · rw [List.pairwise_map]
      exact pairwise_trivial (fun _ _ => le_refl a.1) _
    · intro x hx y hy
      rw [List.mem_map] at hx
      obtain ⟨b, _, hb⟩ := hx
      have hx1 : x.1 = a.1 := by rw [← hb]
      have hy2 := innerJoin_mem (r := y) hy
      have := h.1 (y.1, y.2.1) hy2.1
      rw [hx1]
      exact this

/-- Shape of a produced merged table: the join zipped against the
year-over-year growth column. -/
theorem merged_table_shape {sales inventories : List (Nat × ℚ)}
    {t : List MergedRow}
    (ht : (build_merged_table sales inventories).1 = some t) :
    t = (innerJoin sales inventories).zipWith
      (fun r g => MergedRow.mk r.1 r.2.1 r.2.2 (r.2.2 / r.2.1) g)
      ((pctChange 12 ((innerJoin sales inventories).map (fun r => r.2.1))).map
        (Option.map (fun g => g * 100))) := by
  obtain ⟨hsne, hine⟩ := build_table_ne ht
  rw [build_merged_table_some sales inventories hsne hine] at ht
  exact (Option.some_inj.mp ht).symm

/-- The growth column is as long as the joined table. -/
theorem merged_growth_length (sales inventories : List (Nat × ℚ)) :
    ((pctChange 12 ((innerJoin sales inventories).map (fun r => r.2.1))).map
      (Option.map (fun g => g * 100))).length =
      (innerJoin sales inventories).length := by
  rw [List.length_map, pctChange_length, List.length_map]

/-- The produced merged table is as long as the join. -/
theorem merged_table_length {sales inventories : List (Nat × ℚ)}
    {t : List MergedRow}
    (ht : (build_merged_table sales inventories).1 = some t) :
    t.length = (innerJoin sales inventories).length := by
  rw [merged_table_shape ht]
  exact zipWith_length_eq _ _ _ (merged_growth_length sales inventories)

/-- The sales column of a produced merged table comes from the join. -/
theorem merged_table_sales_get {sales inventories : List (Nat × ℚ)}
    {t : List MergedRow}
    (ht : (build_merged_table sales inventories).1 = some t)
    (k : Nat) (hk : k < t.length)
    (hkj : k < (innerJoin sales inventories).length) :
    (t.get ⟨k, hk⟩).Sales_Total_Nominal =
      ((innerJoin sales inventories).get ⟨k, hkj⟩).2.1 := by
  have hsh := merged_table_shape ht
  subst hsh
  simp [List.get_eq_getElem, List.getElem_zipWith]

/-- The growth column of a produced merged table is pct_change times 100
of the joined sales column. -/
theorem merged_table_yoy_get {sales inventories : List (Nat × ℚ)}
    {t : List MergedRow}
    (ht : (build_merged_table sales inventories).1 = some t)
    (k : Nat) (hk : k < t.length)
    (hkp : k < (pctChange 12
      ((innerJoin sales inventories).map (fun r => r.2.1))).length) :
    (t.get ⟨k, hk⟩).Sales_YoY_Growth =
      Option.map (fun g => g * 100)
        ((pctChange 12 ((innerJoin sales inventories).map
          (fun r => r.2.1))).get ⟨k, hkp⟩) := by
  have hsh := merged_table_shape ht
  subst hsh
  simp [List.get_eq_getElem, List.getElem_zipWith, List.getElem_map]

/-- Every character surviving the first cleaning step is a kept character. -/
theorem removeNonWordSpace_all (l : List Char) :
    ∀ c ∈ removeNonWordSpace l, keepChar c = true :=
  fun _ hc => List.of_mem_filter hc

/-- The space character is kept by the first cleaning step. -/
theorem keepChar_space : keepChar ' ' = true := rfl

/-- The first cleaning step fixes lists of kept characters. -/
theorem removeNonWordSpace_eq_self (l : List Char)
    (h : ∀ c ∈ l, keepChar c = true) : removeNonWordSpace l = l :=
  List.filter_eq_self.mpr h

/-- Whitespace collapsing only ever introduces the space character. -/
theorem mem_collapseSpaces :
    ∀ l : List Char, ∀ c ∈ collapseSpaces l, c = ' ' ∨ c ∈ l
  | [] => by simp [collapseSpaces]
  | [d] => by
    by_cases h : isSpaceChar d <;> simp [collapseSpaces, h]
  | a :: b :: rest => by
    intro c hc
    by_cases h : (isSpaceChar a && isSpaceChar b) = true
    · simp only [collapseSpaces, h, if_true] at hc
      rcases mem_collapseSpaces (b :: rest) c hc with h1 | h1
      · exact Or.inl h1
      · exact Or.inr (List.mem_cons_of_mem a h1)
    · simp only [collapseSpaces, h, if_false] at hc
      rcases List.mem_cons.mp hc with h1 | h1
      · by_cases hs : isSpaceChar a
        · rw [if_pos hs] at h1; exact Or.inl h1
        · rw [if_neg hs] at h1; exact Or.inr (h1 ▸ List.mem_cons_self a _)
      · rcases mem_collapseSpaces (b :: rest) c h1 with h2 | h2
        · exact Or.inl h2
        · exact Or.inr (List.mem_cons_of_mem a h2)

/-- The result of stripChars is a contiguous part of the input. -/
theorem stripChars_part (l : List Char) : stripChars l <:+: l := by
  unfold stripChars
  have h1 : List.dropWhile isSpaceChar l <:+ l := List.dropWhile_suffix _
  have h2 :
      List.dropWhile isSpaceChar (List.dropWhile isSpaceChar l).reverse <:+
        (List.dropWhile isSpaceChar l).reverse := List.dropWhile_suffix _
  have h3 :
      (List.dropWhile isSpaceChar
        (List.dropWhile isSpaceChar l).reverse).reverse <+:
        List.dropWhile isSpaceChar l := by
    rw [← List.reverse_suffix ]
    rw [List.reverse_reverse]
    exact h2
  have h4 := List.IsPrefix.isInfix h3
  have h5 := List.IsSuffix.isInfix h1
  exact List.IsInfix.trans h4 h5

/-- Characters of the stripped list come from the input list. -/
theorem mem_stripChars {l : List Char} {c : Char} (hc : c ∈ stripChars l) :
    c ∈ l := by
  have hs := List.IsInfix.sublist (stripChars_part l)
  exact hs.subset hc

/-- Head of a collapsed run starting with a non-space character. -/
theorem collapseSpaces_head (b : Char) (rest : List Char)
    (hb : isSpaceChar b = false) :
    (collapseSpaces (b :: rest)).head? = some b := by
  cases rest with
  | nil => simp [collapseSpaces, hb]
  | cons r rs => simp [collapseSpaces, hb]

/-- collapseSpaces establishes the collapsed invariant. -/
theorem collapsed_collapseSpaces : ∀ l : List Char, Collapsed (collapseSpaces l)
  | [] => by constructor <;> simp [collapseSpaces]
  | [c] => by
    by_cases h : isSpaceChar c
    · constructor
      · intro d hd _
        simp only [collapseSpaces, h, if_true] at hd
        simpa using hd
      · simp [collapseSpaces, h]
    · constructor
      · intro d hd hsp
        simp only [collapseSpaces, h, Bool.false_eq_true, if_false] at hd
        rw [List.mem_singleton] at hd
        subst hd
        exact absurd hsp h
      · simp [collapseSpaces, h]
  | a :: b :: rest => by
    by_cases h : (isSpaceChar a && isSpaceChar b) = true
    · have ih := collapsed_collapseSpaces (b :: rest)
      simpa only [collapseSpaces, h, if_true] using ih
    · have ih := collapsed_collapseSpaces (b :: rest)
      have hres : collapseSpaces (a :: b :: rest) =
          (if isSpaceChar a then ' ' else a) :: collapseSpaces (b :: rest) := by
        simp only [collapseSpaces, h, Bool.false_eq_true, if_false]
      constructor
      · intro d hd hsp
        rw [hres] at hd
        rcases List.mem_cons.mp hd with h1 | h1
        · subst h1
          by_cases ha : isSpaceChar a
          · rw [if_pos ha]
          · rw [if_neg ha] at hsp
            exact absurd hsp ha
        · exact ih.1 d h1 hsp
      · rw [hres, List.chain'_cons']
        refine ⟨?_, ih.2⟩
        intro y hy
        by_cases ha : isSpaceChar a
        · have hb : isSpaceChar b = false := by
            cases hsb : isSpaceChar b
            · rfl
            · exact absurd (by rw [ha, hsb]; rfl :
                (isSpaceChar a && isSpaceChar b) = true) h
          rw [collapseSpaces_head b rest hb, Option.mem_def,
            Option.some_inj] at hy
          subst hy
          intro hcon
          rw [hb] at hcon
          exact Bool.false_ne_true hcon.2
        · intro hcon
          have hsp := hcon.1
          rw [if_neg ha] at hsp
          exact ha hsp

/-- The collapsed invariant restricts to contiguous parts. -/
theorem collapsed_mono {l m : List Char} (h : Collapsed l) (hm : m <:+: l) :
    Collapsed m := by
  have hs := List.IsInfix.sublist hm
  exact ⟨fun c hc hsp => h.1 c (hs.subset hc) hsp, List.Chain'.infix h.2 hm⟩

/-- collapseSpaces fixes collapsed lists. -/
theorem collapseSpaces_eq_self : ∀ l : List Char, Collapsed l → collapseSpaces l = l
  | [], _ => rfl
  | [c], h => by
    by_cases hs : isSpaceChar c
    · have hc : c = ' ' := h.1 c (List.mem_singleton_self c) hs
      simp [collapseSpaces, hs, hc]
    · simp [collapseSpaces, hs]
  | a :: b :: rest, h => by
    have hnot : ¬(isSpaceChar a = true ∧ isSpaceChar b = true) := by
      have h2 := h.2
      rw [List.chain'_cons'] at h2
      exact h2.1 b rfl
    have hcond : (isSpaceChar a && isSpaceChar b) = false := by
      cases ha : isSpaceChar a <;> cases hb : isSpaceChar b <;> simp_all
    have htail : Collapsed (b :: rest) :=
      ⟨fun c hc => h.1 c (List.mem_cons_of_mem a hc), List.Chain'.tail h.2⟩
    have hres : collapseSpaces (a :: b :: rest) =
        (if isSpaceChar a then ' ' else a) :: collapseSpaces (b :: rest) := by
      simp only [collapseSpaces, hcond, Bool.false_eq_true, if_false]
    rw [hres, collapseSpaces_eq_self (b :: rest) htail]
    by_cases ha : isSpaceChar a
    · have hA : a = ' ' := h.1 a (List.mem_cons_self a _) ha
      rw [if_pos ha, hA]
    · rw [if_neg ha]

/-- dropWhile is idempotent. -/
theorem dropWhile_dropWhile_same (p : Char → Bool) :
    ∀ l : List Char, List.dropWhile p (List.dropWhile p l) = List.dropWhile p l
  | [] => rfl
  | c :: t => by
    by_cases h : p c
    · rw [List.dropWhile_cons, if_pos h]
      exact dropWhile_dropWhile_same p t
    · rw [List.dropWhile_cons, if_neg h, List.dropWhile_cons, if_neg h]

/-- dropWhile fixes lists whose head fails the predicate. -/
theorem dropWhile_eq_self_of_head (p : Char → Bool) (l : List Char)
    (h : ∀ c ∈ l.head?, p c = false) : List.dropWhile p l = l := by
  cases l with
  | nil => rfl
  | cons c t =>
    rw [List.dropWhile_cons, if_neg]
    rw [h c rfl]
    exact Bool.false_ne_true

/-- stripChars is idempotent. -/
theorem stripChars_stripChars (l : List Char) :
    stripChars (stripChars l) = stripChars l := by
  unfold stripChars
  set y := List.dropWhile isSpaceChar l with hy
  set z := List.dropWhile isSpaceChar y.reverse with hz
  rcases eq_or_ne z [] with h0 | h0
  · simp [h0]
  · have hyhead : ∀ c ∈ y.head?, isSpaceChar c = false := by
      intro c hc
      have hk := List.head?_dropWhile_not isSpaceChar l
      rw [← hy] at hk
      rw [Option.mem_def] at hc
      rw [hc] at hk
      exact hk
    have hzr : z.reverse.head? = y.head? := by
      rw [List.head?_reverse]
      obtain ⟨t, ht⟩ := List.dropWhile_suffix (l := y.reverse) isSpaceChar
      rw [← hz] at ht
      calc z.getLast? = (t ++ z).getLast? :=
            (List.getLast?_append_of_ne_nil t h0).symm
        _ = y.reverse.getLast? := by rw [ht]
        _ = y.head? := List.getLast?_reverse y
    have hdz : List.dropWhile isSpaceChar z.reverse = z.reverse := by
      apply dropWhile_eq_self_of_head
      intro c hc
      rw [hzr] at hc
      exact hyhead c hc
    rw [hdz, List.reverse_reverse]
    have hzz : List.dropWhile isSpaceChar z = z := by
      rw [hz]
      exact dropWhile_dropWhile_same _ _
    rw [hzz]

/-- C2 counterexample: on the input rows ("Jan", "2020.0", "1,234") and
("Feb", "2020", "bad") the cleaned series is empty, not the claimed single
row: the date string "Jan 2020" does not match the full-month-name date
format, so the first row is dropped together with the second. -/
theorem C2_counterexample :
    cleanRows [⟨"Jan", "2020.0", "1,234"⟩, ⟨"Feb", "2020", "bad"⟩] = [] ∧
    (cleanRows [⟨"Jan", "2020.0", "1,234"⟩, ⟨"Feb", "2020", "bad"⟩]).length ≠ 1 := by
  constructor
  · decide
  · decide

/-- C2 amended: with the full month name "January" in place of the
abbreviation "Jan", the cleaned series contains exactly one row, with
Date = January 2020 and Value = 1234: month and year are concatenated and
parsed as a full-month-name plus 4-digit-year date (the year's trailing
".0" removed first), rows whose date or value fails to parse are dropped,
and the value is parsed after stripping the thousands-separator comma. -/
theorem C2_amended_single_row :
    cleanRows [⟨"January", "2020.0", "1,234"⟩, ⟨"Feb", "2020", "bad"⟩] =
      [(dateKey 2020 1, (1234 : ℚ))] := by
  have h : cleanRows [⟨"January", "2020.0", "1,234"⟩, ⟨"Feb", "2020", "bad"⟩] =
      [(dateKey 2020 1,
        (digitsVal ['1', '2', '3', '4'] : ℚ) + (digitsVal [] : ℚ) / 10 ^ 0)] := by
    rfl
  rw [h]
  have hd : digitsVal ['1', '2', '3', '4'] = 1234 := by decide
  have h0 : digitsVal [] = 0 := rfl
  rw [hd, h0]
  norm_num

/-- C6: for every requested column name, a missing input file and a file
with no parseable tabular data both yield an empty series together with a
printed diagnostic, via the ok constructor rather than an exception. -/
theorem C6_missing_or_empty_file (colName : String) :
    load_and_clean_data FileState.notFound colName =
      LoadResult.ok ["Error: File not found"] [] ∧
    load_and_clean_data FileState.emptyData colName =
      LoadResult.ok ["Error: File is empty or invalid"] [] :=
  ⟨rfl, rfl⟩

/-- C9: a table file whose header lacks the Month column, the Year column,
or the literal "42" column (the requested value name not already being a
column) makes the column selection raise an uncaught exception; in
particular the load does not return an empty series. -/
theorem C9_missing_column_raises (header : List String)
    (rows : List (List String)) (colName : String)
    (hcol : colName ∉ header) (hm : colName ≠ "Month") (hy : colName ≠ "Year")
    (hmiss : "42" ∉ header ∨ "Month" ∉ header ∨ "Year" ∉ header) :
    load_and_clean_data (FileState.table header rows) colName =
      LoadResult.raised "KeyError: columns not in index" ∧
    (∀ diags series,
      load_and_clean_data (FileState.table header rows) colName ≠
        LoadResult.ok diags series) ∧
    (colName = "Sales_Total_Nominal" → ∀ invFile,
      run_data_processing (FileState.table header rows) invFile =
        Except.error "KeyError: columns not in index") := by
  have hcond : ¬("Month" ∈ renameHeader header colName ∧
      "Year" ∈ renameHeader header colName ∧
      colName ∈ renameHeader header colName) := by
    intro hc
    rcases hmiss with h42 | hM | hY
    · obtain ⟨h0, hh0, he⟩ := List.mem_map.mp hc.2.2
      by_cases h42h : h0 = "42"
      · exact h42 (h42h ▸ hh0)
      · rw [if_neg h42h] at he
        exact hcol (he ▸ hh0)
    · obtain ⟨h0, hh0, he⟩ := List.mem_map.mp hc.1
      by_cases h42h : h0 = "42"
      · rw [if_pos h42h] at he
        exact hm he
      · rw [if_neg h42h] at he
        exact hM (he ▸ hh0)
    · obtain ⟨h0, hh0, he⟩ := List.mem_map.mp hc.2.1
      by_cases h42h : h0 = "42"
      · rw [if_pos h42h] at he
        exact hy he
      · rw [if_neg h42h] at he
        exact hY (he ▸ hh0)
  have hload : load_and_clean_data (FileState.table header rows) colName =
      LoadResult.raised "KeyError: columns not in index" := by
    simp only [load_and_clean_data]
    rw [if_neg hcond]
  refine ⟨hload, ?_, ?_⟩
  · intro diags series hok
    rw [hload] at hok
    exact absurd hok (by simp)
  · intro hcn invFile
    subst hcn
    simp only [run_data_processing, hload]

/-- Witness for C9 at a concrete header lacking the "42" column. -/
theorem C9_missing_column_raises_witness :
    ("Sales_Total_Nominal" ∉ (["Month", "Year", "Other"] : List String)) ∧
    load_and_clean_data
        (FileState.table ["Month", "Year", "Other"] [["January", "2020", "7"]])
        "Sales_Total_Nominal" =
      LoadResult.raised "KeyError: columns not in index" :=
  ⟨by decide,
   (C9_missing_column_raises ["Month", "Year", "Other"]
     [["January", "2020", "7"]] "Sales_Total_Nominal" (by decide) (by decide)
     (by decide) (Or.inl (by decide))).1⟩

/-- Witness instantiation of C6 at the column name the script uses. -/
theorem C6_missing_or_empty_file_witness :
    load_and_clean_data FileState.notFound "Sales_Total_Nominal" =
      LoadResult.ok ["Error: File not found"] [] ∧
    load_and_clean_data FileState.emptyData "Sales_Total_Nominal" =
      LoadResult.ok ["Error: File is empty or invalid"] [] :=
  C6_missing_or_empty_file "Sales_Total_Nominal"

/-- C5: when either cleaned input series is empty, the merge step warns
about each empty input, returns no table and aborts, so neither the CSV
write nor any chart write is among the run's events; and this is the only
hard stop: on non-empty inputs a table is always produced and no abort is
recorded. -/
theorem C5_empty_input_aborts (salesFile invFile : FileState)
    (d1 d2 : List String) (s i : List (Nat × ℚ))
    (hs : load_and_clean_data salesFile "Sales_Total_Nominal" =
      LoadResult.ok d1 s)
    (hi : load_and_clean_data invFile "Inventories_Total_Nominal" =
      LoadResult.ok d2 i)
    (he : s = [] ∨ i = []) :
    main_model salesFile invFile =
      Except.ok (none, (build_merged_table s i).2) ∧
    (build_merged_table s i).1 = none ∧
    Event.writeCsv ∉ (build_merged_table s i).2 ∧
    (∀ k, Event.writeChart k ∉ (build_merged_table s i).2) ∧
    Event.abortRun ∈ (build_merged_table s i).2 ∧
    (s = [] → Event.warnSalesEmpty ∈ (build_merged_table s i).2) ∧
    (i = [] → Event.warnInventoriesEmpty ∈ (build_merged_table s i).2) ∧
    (∀ s2 i2 : List (Nat × ℚ), s2 ≠ [] → i2 ≠ [] →
      ((build_merged_table s2 i2).1).isSome ∧
        Event.abortRun ∉ (build_merged_table s2 i2).2) := by
  have hb := build_merged_table_abort s i he
  have hrun : run_data_processing salesFile invFile =
      Except.ok (build_merged_table s i) := by
    simp only [run_data_processing, hs, hi]
  have hmain : main_model salesFile invFile =
      Except.ok (none, (build_merged_table s i).2) := by
    rw [main_model, hrun, hb]
  refine ⟨hmain, ?_, ?_, ?_, ?_, ?_, ?_, ?_⟩
  · rw [hb]
  · rw [hb]
    by_cases h1 : s.isEmpty <;> by_cases h2 : i.isEmpty <;> simp [h1, h2]
  · intro k
    rw [hb]
    by_cases h1 : s.isEmpty <;> by_cases h2 : i.isEmpty <;> simp [h1, h2]
  · rw [hb]
    simp
  · intro h1
    rw [hb]
    have : s.isEmpty = true := by rw [h1]; rfl
    simp [this]
  · intro h2
    rw [hb]
    have : i.isEmpty = true := by rw [h2]; rfl
    simp [this]
  · intro s2 i2 hs2 hi2
    rw [build_merged_table_some s2 i2 hs2 hi2]
    simp

/-- Witness for C5 with both input files missing, hence empty series. -/
theorem C5_empty_input_aborts_witness :
    main_model FileState.notFound FileState.notFound =
      Except.ok (none, (build_merged_table ([] : List (Nat × ℚ)) []).2) :=
  (C5_empty_input_aborts FileState.notFound FileState.notFound
    ["Error: File not found"] ["Error: File not found"] [] [] rfl rfl
    (Or.inl rfl)).1

/-- C8: the month-label cleaning function (strip non-alphanumeric,
non-whitespace characters; collapse internal whitespace runs to a single
space; trim edges) is idempotent: applying it twice to any string gives
the same result as applying it once, so cleaning an already-clean label
returns it unchanged. -/
theorem C8_cleanMonth_idempotent (s : String) :
    cleanMonth (cleanMonth s) = cleanMonth s := by
  unfold cleanMonth
  set m := collapseSpaces (removeNonWordSpace s.toList) with hm
  have htl : (String.mk (stripChars m)).toList = stripChars m := rfl
  rw [htl]
  have hpart : stripChars m <:+: m := stripChars_part m
  have hkeep : ∀ c ∈ stripChars m, keepChar c = true := by
    intro c hc
    have hc2 : c ∈ m := mem_stripChars hc
    rcases mem_collapseSpaces _ c hc2 with rfl | hc3
    · exact keepChar_space
    · exact removeNonWordSpace_all _ c hc3
  rw [removeNonWordSpace_eq_self _ hkeep]
  have hcol : Collapsed (stripChars m) :=
    collapsed_mono (collapsed_collapseSpaces (removeNonWordSpace s.toList)) hpart
  rw [collapseSpaces_eq_self _ hcol]
  rw [stripChars_stripChars]

/-- Witness instantiation of C8 on a concrete annotated month label. -/
theorem C8_cleanMonth_idempotent_witness :
    cleanMonth (cleanMonth "  June   p* ") = cleanMonth "  June   p* " :=
  C8_cleanMonth_idempotent "  June   p* "

/-- C7: every series a load returns contains only rows whose Date and
numeric Value were successfully parsed from a source row (so no null Date
or null Value is ever returned), is sorted ascending by Date, and may be
empty. -/
theorem C7_clean_series_valid (f : FileState) (colName : String)
    (diags : List String) (s : List (Nat × ℚ))
    (h : load_and_clean_data f colName = LoadResult.ok diags s) :
    s.Pairwise (fun a b => a.1 ≤ b.1) ∧
    ∀ r ∈ s, ∃ raw ∈ sourceRows f colName,
      parseMonthYear (cleanMonth raw.month ++ " " ++ cleanYear raw.year) =
        some r.1 ∧
      parseNumeric (stripCommas raw.value) = some r.2 := by
  have hs := load_ok_series h
  subst hs
  refine ⟨cleanRows_pairwise _, ?_⟩
  intro r hr
  rw [mem_cleanRows] at hr
  obtain ⟨raw, hraw, hcr⟩ := List.mem_filterMap.mp hr
  exact ⟨raw, hraw, cleanRow_eq_some.mp hcr⟩

/-- Witness for C7 on a missing file, whose load succeeds with the empty
series. -/
theorem C7_clean_series_valid_witness :
    (cleanRows (sourceRows FileState.notFound "Sales_Total_Nominal")).Pairwise
      (fun a b => a.1 ≤ b.1) ∧
    ∀ r ∈ cleanRows (sourceRows FileState.notFound "Sales_Total_Nominal"),
      ∃ raw ∈ sourceRows FileState.notFound "Sales_Total_Nominal",
        parseMonthYear (cleanMonth raw.month ++ " " ++ cleanYear raw.year) =
          some r.1 ∧
        parseNumeric (stripCommas raw.value) = some r.2 :=
  C7_clean_series_valid FileState.notFound "Sales_Total_Nominal"
    ["Error: File not found"] (cleanRows (sourceRows FileState.notFound
      "Sales_Total_Nominal")) rfl

/-- C10: the merged (and persisted) table is always sorted ascending by
Date: the inner join preserves the row order of the sales series, which
the loader has already sorted ascending, so consecutive merged rows have
non-decreasing dates. -/
theorem C10_merged_sorted (salesFile invFile : FileState)
    (d1 d2 : List String) (s i : List (Nat × ℚ)) (t : List MergedRow)
    (hs : load_and_clean_data salesFile "Sales_Total_Nominal" =
      LoadResult.ok d1 s)
    (hi : load_and_clean_data invFile "Inventories_Total_Nominal" =
      LoadResult.ok d2 i)
    (ht : (build_merged_table s i).1 = some t) :
    t.Chain' (fun a b => a.Date ≤ b.Date) := by
  have hsorted : s.Pairwise (fun a b => a.1 ≤ b.1) := by
    rw [load_ok_series hs]
    exact cleanRows_pairwise _
  have hjoin := innerJoin_pairwise i hsorted
  have hsh := merged_table_shape ht
  have hdates : t.map (fun r => r.Date) =
      (innerJoin s i).map (fun r => r.1) := by
    rw [hsh, List.map_zipWith]
    exact zipWith_fst (fun r : Nat × ℚ × ℚ => r.1) _ _
      (merged_growth_length s i)
  have h1 : (t.map (fun r => r.Date)).Pairwise (fun a b => a ≤ b) := by
    rw [hdates]
    exact List.pairwise_map.mpr hjoin
  exact List.Pairwise.chain' (List.pairwise_map.mp h1)

/-- Witness for C10 on concrete table files producing a two-row merge. -/
theorem C10_merged_sorted_witness :
    ∃ t : List MergedRow,
      (build_merged_table
        (cleanRows (sourceRows (FileState.table ["Month", "Year", "42"]
          [["January", "2020", "3"], ["February", "2020", "4"]])
          "Sales_Total_Nominal"))
        (cleanRows (sourceRows (FileState.table ["Month", "Year", "42"]
          [["January", "2020", "5"], ["February", "2020", "6"]])
          "Inventories_Total_Nominal"))).1 = some t ∧
      t.Chain' (fun a b => a.Date ≤ b.Date) := by
  refine ⟨_, rfl, ?_⟩
  exact C10_merged_sorted
    (FileState.table ["Month", "Year", "42"]
      [["January", "2020", "3"], ["February", "2020", "4"]])
    (FileState.table ["Month", "Year", "42"]
      [["January", "2020", "5"], ["February", "2020", "6"]])
    ["Loaded rows"] ["Loaded rows"] _ _ _ rfl rfl rfl

/-- C3: the merge is an inner join on exact Date equality: every merged
row's Date occurs in both input series; and on the concrete pair of
cleaned series whose common dates are January and February 2020 with
disjoint extra dates, the merged table holds exactly the two common rows,
pairing each date with both values. -/
theorem C3_inner_join_semantics (sales inventories : List (Nat × ℚ))
    (t : List MergedRow)
    (ht : (build_merged_table sales inventories).1 = some t) :
    (∀ r ∈ t, r.Date ∈ sales.map Prod.fst ∧
      r.Date ∈ inventories.map Prod.fst) ∧
    ((build_merged_table exSales exInventories).1).map
      (fun tbl => tbl.map (fun r =>
        (r.Date, r.Sales_Total_Nominal, r.Inventories_Total_Nominal))) =
      some [(dateKey 2020 1, 100, 55), (dateKey 2020 2, 110, 60)] := by
  constructor
  · intro r hr
    have hsh := merged_table_shape ht
    rw [hsh] at hr
    obtain ⟨⟨k, hk⟩, hget⟩ := List.mem_iff_get.mp hr
    have hkj : k < (innerJoin sales inventories).length := by
      have := hk
      rw [zipWith_length_eq _ _ _ (merged_growth_length sales inventories)]
        at this
      exact this
    have hgetj : r.Date = ((innerJoin sales inventories).get ⟨k, hkj⟩).1 := by
      rw [← hget]
      simp [List.get_eq_getElem, List.getElem_zipWith]
    have hmem := innerJoin_mem (List.get_mem (innerJoin sales inventories)
      k hkj)
    constructor
    · rw [hgetj]
      exact List.mem_map.mpr ⟨_, hmem.1, rfl⟩
    · rw [hgetj]
      exact List.mem_map.mpr ⟨_, hmem.2, rfl⟩
  · decide

/-- Witness for C3 on the two example series. -/
theorem C3_inner_join_semantics_witness :
    ∃ t : List MergedRow,
      (build_merged_table exSales exInventories).1 = some t ∧
      ∀ r ∈ t, r.Date ∈ exSales.map Prod.fst ∧
        r.Date ∈ exInventories.map Prod.fst := by
  refine ⟨_, rfl, ?_⟩
  exact (C3_inner_join_semantics exSales exInventories _ rfl).1

/-- C4: for every merged row the nominal inventories-to-sales ratio column
is exactly the inventories value divided by the sales value, and there is
no guard on zero sales: one output row is produced per joined pair
whatever the values, the quotient being the unguarded division. -/
theorem C4_ratio_column (sales inventories : List (Nat × ℚ))
    (t : List MergedRow)
    (ht : (build_merged_table sales inventories).1 = some t) :
    (∀ r ∈ t, r.Inventories_to_Sales_Ratio_Nominal =
      r.Inventories_Total_Nominal / r.Sales_Total_Nominal) ∧
    t.length = (innerJoin sales inventories).length := by
  refine ⟨?_, merged_table_length ht⟩
  intro r hr
  have hsh := merged_table_shape ht
  rw [hsh] at hr
  obtain ⟨⟨k, hk⟩, hget⟩ := List.mem_iff_get.mp hr
  rw [← hget]
  simp [List.get_eq_getElem, List.getElem_zipWith]

/-- Witness for C4 on a series pair containing a zero sales value. -/
theorem C4_ratio_column_witness :
    ∃ t : List MergedRow,
      (build_merged_table [(0, (0 : ℚ)), (1, 4)] [(0, 3), (1, 8)]).1 =
        some t ∧
      (∀ r ∈ t, r.Inventories_to_Sales_Ratio_Nominal =
        r.Inventories_Total_Nominal / r.Sales_Total_Nominal) ∧
      t.length = (innerJoin [(0, (0 : ℚ)), (1, 4)] [(0, 3), (1, 8)]).length := by
  refine ⟨_, rfl, ?_⟩
  exact C4_ratio_column [(0, (0 : ℚ)), (1, 4)] [(0, 3), (1, 8)] _ rfl

/-- C1: in every produced merged table, the year-over-year growth at row
index i equals 100 * (Sales[i] - Sales[i-12]) / Sales[i-12], where i-12
is the row twelve positions earlier in the sorted joined table
(index-based, not calendar-based); the value is missing for every index
below 12, and a joined table shorter than 12 rows has no defined growth
at all.  The formula case assumes a non-zero lagged sales value, since
the rational embedding has no float infinity to divide into. -/
theorem C1_yoy_growth (sales inventories : List (Nat × ℚ))
    (t : List MergedRow)
    (ht : (build_merged_table sales inventories).1 = some t) :
    (∀ i (h : i < t.length), i < 12 →
      (t.get ⟨i, h⟩).Sales_YoY_Growth = none) ∧
    (∀ i (h : i < t.length) (h12 : 12 ≤ i),
      (t.get ⟨i - 12, lt_of_le_of_lt (Nat.sub_le i 12) h⟩).Sales_Total_Nominal ≠ 0 →
      (t.get ⟨i, h⟩).Sales_YoY_Growth =
        some (100 * ((t.get ⟨i, h⟩).Sales_Total_Nominal -
          (t.get ⟨i - 12,
            lt_of_le_of_lt (Nat.sub_le i 12) h⟩).Sales_Total_Nominal) /
          (t.get ⟨i - 12,
            lt_of_le_of_lt (Nat.sub_le i 12) h⟩).Sales_Total_Nominal)) ∧
    (t.length < 12 → ∀ r ∈ t, r.Sales_YoY_Growth = none) := by
  have hlenJ := merged_table_length ht
  have part1 : ∀ i (h : i < t.length), i < 12 →
      (t.get ⟨i, h⟩).Sales_YoY_Growth = none := by
    intro i h hi12
    have hkp : i < (pctChange 12
        ((innerJoin sales inventories).map (fun r => r.2.1))).length := by
      rw [pctChange_length, List.length_map, ← hlenJ]
      exact h
    rw [merged_table_yoy_get ht i h hkp]
    rw [pctChange_get_lt _ _ _ hkp hi12]
    rfl
  refine ⟨part1, ?_, ?_⟩
  · intro i h h12 hz
    have hJi : i < (innerJoin sales inventories).length := by
      rw [← hlenJ]
      exact h
    have hJsub : i - 12 < (innerJoin sales inventories).length :=
      lt_of_le_of_lt (Nat.sub_le i 12) hJi
    have htsub : i - 12 < t.length := lt_of_le_of_lt (Nat.sub_le i 12) h
    have hkp : i < (pctChange 12
        ((innerJoin sales inventories).map (fun r => r.2.1))).length := by
      rw [pctChange_length, List.length_map]
      exact hJi
    have hSCi : i < ((innerJoin sales inventories).map
        (fun r => r.2.1)).length := by
      rw [List.length_map]
      exact hJi
    have hSCsub : i - 12 < ((innerJoin sales inventories).map
        (fun r => r.2.1)).length := by
      rw [List.length_map]
      exact hJsub
    rw [merged_table_yoy_get ht i h hkp]
    rw [pctChange_get_ge 12 _ i hkp h12 hSCi hSCsub]
    have e1 : ((innerJoin sales inventories).map (fun r => r.2.1)).get
        ⟨i, hSCi⟩ = ((innerJoin sales inventories).get ⟨i, hJi⟩).2.1 := by
      simp [List.get_eq_getElem, List.getElem_map]
    have e2 : ((innerJoin sales inventories).map (fun r => r.2.1)).get
        ⟨i - 12, hSCsub⟩ =
        ((innerJoin sales inventories).get ⟨i - 12, hJsub⟩).2.1 := by
      simp [List.get_eq_getElem, List.getElem_map]
    rw [Option.map_some', e1, e2]
    rw [merged_table_sales_get ht i h hJi]
    rw [merged_table_sales_get ht (i - 12) htsub hJsub]
    rw [merged_table_sales_get ht (i - 12) htsub hJsub] at hz
    rw [Option.some_inj]
    have halg : ∀ a b : ℚ, b ≠ 0 → (a / b - 1) * 100 = 100 * (a - b) / b := by
      intro a b hb
      field_simp
      ring
    exact halg _ _ hz
  · intro hlen r hr
    obtain ⟨⟨k, hk⟩, hget⟩ := List.mem_iff_get.mp hr
    rw [← hget]
    exact part1 k hk (lt_trans hk hlen)

/-- Witness for C1 on thirteen months of constant sales 100: the growth at
index 12 is defined and given by the index formula. -/
theorem C1_yoy_growth_witness :
    (exTable13.get ⟨12, by decide⟩).Sales_YoY_Growth =
      some (100 * ((exTable13.get ⟨12, by decide⟩).Sales_Total_Nominal -
        (exTable13.get ⟨0, by decide⟩).Sales_Total_Nominal) /
        (exTable13.get ⟨0, by decide⟩).Sales_Total_Nominal) :=
  (C1_yoy_growth exSales13 exInv13 exTable13 rfl).2.1 12 (by decide)
    (by decide) (by decide)

end WTS
